import Mathlib

/-!
Verification of the typed Spring Boot module-injection builder
(src/generators/spring-boot/support/typed-api.ts).

The builder (class SpringBootModuleInjector) accumulates three ordered lists
(module requests, property overrides, dependency declarations) and replays
them against an external generator object in applyTo.  Values of dynamic
(any-typed) payloads are modelled by a type parameter a; error values thrown
by the external composition call are modelled by a type parameter e.
-/

namespace TypedApi

/-- The declared property type tag of SpringBootPropertyOverride.type
    ('string' | 'number' | 'boolean' | 'array' | 'object'). -/
inductive PropType where
  | string
  | number
  | boolean
  | array
  | object
deriving DecidableEq, Repr

/-- The dependency scope tag of SpringBootDependencyConfig.scope
    ('compile' | 'runtime' | 'test' | 'provided'). -/
inductive DepScope where
  | compile
  | runtime
  | testScope
  | provided
deriving DecidableEq, Repr

/-- interface SpringBootModuleConfig: module identifier, enabled flag,
    optional opaque config payload, optional numeric priority. -/
structure SpringBootModuleConfig (a : Type) where
  module : String
  enabled : Bool
  config : Option a
  priority : Option Int
deriving DecidableEq, Repr

/-- interface SpringBootPropertyOverride: dot-path property name, value,
    optional declared type, optional override flag, optional per-profile map.
    A JS Record iterated via Object.entries in insertion order is modelled
    as an association list. -/
structure SpringBootPropertyOverride (a : Type) where
  property : String
  value : a
  type : Option PropType
  override : Option Bool
  profiles : Option (List (String × a))
deriving DecidableEq, Repr

/-- interface SpringBootDependencyConfig. -/
structure SpringBootDependencyConfig where
  groupId : String
  artifactId : String
  version : Option String
  scope : Option DepScope
  optional : Option Bool
  exclusions : Option (List (String × String))
deriving DecidableEq, Repr

/-- Omit of SpringBootModuleConfig without the module field: the second
    parameter type of injectModule (enabled is required, the rest optional). -/
structure InjectOptions (a : Type) where
  enabled : Bool
  config : Option a
  priority : Option Int
deriving DecidableEq, Repr

/-- Omit of SpringBootPropertyOverride without property and value: the
    options parameter of overrideProperty (TS default is the empty object,
    i.e. all three fields absent). -/
structure OverrideOptions (a : Type) where
  type : Option PropType
  override : Option Bool
  profiles : Option (List (String × a))
deriving DecidableEq, Repr

/-- class SpringBootModuleInjector: three private growable ordered lists. -/
structure SpringBootModuleInjector (a : Type) where
  modules : List (SpringBootModuleConfig a)
  propertyOverrides : List (SpringBootPropertyOverride a)
  dependencies : List SpringBootDependencyConfig
deriving DecidableEq, Repr

/-- new SpringBootModuleInjector() / createSpringBootInjector(): all three
    lists start empty. -/
def createSpringBootInjector (a : Type) : SpringBootModuleInjector a :=
  { modules := [], propertyOverrides := [], dependencies := [] }

/-- The object \x7b module, ...config \x7d pushed by injectModule: an omitted
    config (none) is replaced by the default with enabled = true and no
    config payload or priority; a supplied config contributes all of its
    fields (its enabled field is mandatory in the TS type, so spreading it
    overwrites the default entirely). -/
def moduleEntryOf (m : String) (cfg : Option (InjectOptions a)) :
    SpringBootModuleConfig a :=
  let c := cfg.getD { enabled := true, config := none, priority := none }
  { module := m, enabled := c.enabled, config := c.config,
    priority := c.priority }

/-- injectModule(module, config = \x7b enabled: true \x7d): pushes
    \x7b module, ...config \x7d. -/
def injectModule (s : SpringBootModuleInjector a) (m : String)
    (cfg : Option (InjectOptions a)) : SpringBootModuleInjector a :=
  { s with modules := s.modules ++ [moduleEntryOf m cfg] }

/-- The object \x7b property, value, ...options \x7d pushed by
    overrideProperty. -/
def overrideEntryOf (property : String) (value : a)
    (options : OverrideOptions a) : SpringBootPropertyOverride a :=
  { property := property, value := value, type := options.type,
    override := options.override, profiles := options.profiles }

/-- overrideProperty(property, value, options = \x7b\x7d): pushes
    \x7b property, value, ...options \x7d. -/
def overrideProperty (s : SpringBootModuleInjector a) (property : String)
    (value : a) (options : OverrideOptions a) : SpringBootModuleInjector a :=
  { s with propertyOverrides := s.propertyOverrides ++
      [overrideEntryOf property value options] }

/-- addDependency(config): pushes the declaration verbatim. -/
def addDependency (s : SpringBootModuleInjector a)
    (config : SpringBootDependencyConfig) : SpringBootModuleInjector a :=
  { s with dependencies := s.dependencies ++ [config] }

/-- getModules(): returns a copy of the module list (a pure value here;
    aliasing of the copy is treated separately by the store model below). -/
def getModules (s : SpringBootModuleInjector a) :
    List (SpringBootModuleConfig a) :=
  s.modules

/-- getPropertyOverrides(): returns a copy of the override list. -/
def getPropertyOverrides (s : SpringBootModuleInjector a) :
    List (SpringBootPropertyOverride a) :=
  s.propertyOverrides

/-- getDependencies(): returns a copy of the dependency list. -/
def getDependencies (s : SpringBootModuleInjector a) :
    List SpringBootDependencyConfig :=
  s.dependencies

/-! ## The external generator object

The generator passed to applyTo is an external collaborator.  Its
composeWithJHipster behaviour (success or thrown error per call) is a fixed
function; the observable effects are instrumented: a log of composition
calls, the jhipsterConfig map (a JS object modelled as an association list
with overwrite-in-place semantics), and ghost write logs.  The dependency
map is NOT a separate field: the source stores it under the
jhipsterConfig key "springBootDependencies", so a value of the map is
either an override-written opaque payload or the nested dependency map, and
override writes to that path interact with the dependency phase. -/

/-- A value stored under a jhipsterConfig key: an opaque payload written by
    a property override (val), the nested dependency map written by the
    dependency phase (depMap), or a truthy override-written payload into
    which the dependency phase has index-assigned entries (valDeps — the JS
    object case; a truthy primitive would instead throw in strict mode, a
    case no claim exercises). -/
inductive ConfigValue (a : Type) where
  | val : a → ConfigValue a
  | depMap : List (String × String) → ConfigValue a
  | valDeps : a → List (String × String) → ConfigValue a
deriving DecidableEq, Repr

/-- JS falsiness of the opaque payload type (the source's !value check on
    jhipsterConfig.springBootDependencies). -/
class JSFalsy (a : Type) where
  falsy : a → Bool

/-- Number 0 is falsy in JS. -/
instance : JSFalsy Nat := ⟨fun n => n == 0⟩

/-- The empty string is falsy in JS. -/
instance : JSFalsy String := ⟨fun s => s == ""⟩

/-- A placeholder payload standing for a truthy opaque value. -/
instance : JSFalsy Unit := ⟨fun _ => false⟩

structure Generator (a e : Type) where
  composeWithJHipster : String → Option a → Except e Unit
  composeCalls : List (String × Option a)
  jhipsterConfig : List (String × ConfigValue a)
  configWrites : List (String × a)
  depWrites : List (String × String)

/-- JS object assignment obj[k] = v: an existing key keeps its position and
    gets the new value, a new key is appended. -/
def setAssoc (m : List (String × b)) (k : String) (v : b) :
    List (String × b) :=
  match m with
  | [] => [(k, v)]
  | (k1, v1) :: rest =>
    if k1 = k then (k, v) :: rest else (k1, v1) :: setAssoc rest k v

/-- JS object read obj[k]. -/
def lookupAssoc (m : List (String × b)) (k : String) : Option b :=
  match m with
  | [] => none
  | (k1, v1) :: rest => if k1 = k then some v1 else lookupAssoc rest k

/-- One override assignment generator.jhipsterConfig[k] = v: the stored
    value is the opaque payload v, and the configWrites ghost log records
    the assignments made by the property-override phase (the dependency
    phase's assignments to the springBootDependencies key are tracked in
    depWrites). -/
def writeConfig (g : Generator a e) (k : String) (v : a) : Generator a e :=
  { g with jhipsterConfig := setAssoc g.jhipsterConfig k (ConfigValue.val v),
           configWrites := g.configWrites ++ [(k, v)] }

/-- Read of the target configuration map. -/
def getValue (g : Generator a e) (k : String) : Option (ConfigValue a) :=
  lookupAssoc g.jhipsterConfig k

/-- Read of the dependency map, i.e. of the dependency entries reachable
    under jhipsterConfig["springBootDependencies"] (none when the key is
    absent or holds a plain override payload). -/
def getDep (g : Generator a e) (k : String) : Option String :=
  match lookupAssoc g.jhipsterConfig "springBootDependencies" with
  | some (ConfigValue.depMap m) => lookupAssoc m k
  | some (ConfigValue.valDeps _ m) => lookupAssoc m k
  | _ => none

/-- private applyPropertyOverride(generator, propOverride): writes the base
    value under the property path, then, when a profiles map is present, one
    write per (profile, value) entry under path ++ "@" ++ profile, in the
    insertion order of the map. -/
def applyPropertyOverride (g : Generator a e)
    (p : SpringBootPropertyOverride a) : Generator a e :=
  let g1 := writeConfig g p.property p.value
  match p.profiles with
  | none => g1
  | some ps =>
    ps.foldl (fun gg pv => writeConfig gg (p.property ++ "@" ++ pv.1) pv.2) g1

/-- private addDependencyToGenerator(generator, dep):
    if (!generator.jhipsterConfig.springBootDependencies) re-initialise that
    key to the empty object (the check is on JS falsiness: an absent key or
    a falsy override-written payload is replaced); then
    jhipsterConfig.springBootDependencies[groupId ++ ":" ++ artifactId] =
    version ?? "BOM".  A truthy payload is kept and receives the entry
    (valDeps, the JS object case); a depMap accumulates.  The depWrites
    ghost log records the dependency-entry assignment. -/
def addDependencyToGenerator [JSFalsy a] (g : Generator a e)
    (dep : SpringBootDependencyConfig) : Generator a e :=
  let key := dep.groupId ++ ":" ++ dep.artifactId
  let v := dep.version.getD "BOM"
  let newVal : ConfigValue a :=
    match lookupAssoc g.jhipsterConfig "springBootDependencies" with
    | none => ConfigValue.depMap (setAssoc [] key v)
    | some (ConfigValue.depMap m) => ConfigValue.depMap (setAssoc m key v)
    | some (ConfigValue.val x) =>
      if JSFalsy.falsy x then ConfigValue.depMap (setAssoc [] key v)
      else ConfigValue.valDeps x (setAssoc [] key v)
    | some (ConfigValue.valDeps x m) => ConfigValue.valDeps x (setAssoc m key v)
  { g with jhipsterConfig :=
      setAssoc g.jhipsterConfig "springBootDependencies" newVal,
           depWrites := g.depWrites ++ [(key, v)] }

/-- (a.priority ?? 0): the sort key of the comparator in applyTo. -/
def priorityKey (m : SpringBootModuleConfig a) : Int :=
  m.priority.getD 0

/-- The ordering induced by the comparator
    (a, b) => (a.priority ?? 0) - (b.priority ?? 0). -/
def moduleLE (m1 m2 : SpringBootModuleConfig a) : Prop :=
  priorityKey m1 ≤ priorityKey m2

instance : DecidableRel (moduleLE (a := a)) :=
  fun m1 m2 => inferInstanceAs (Decidable (priorityKey m1 ≤ priorityKey m2))

instance : IsTotal (SpringBootModuleConfig a) moduleLE :=
  ⟨fun m1 m2 => Int.le_total (priorityKey m1) (priorityKey m2)⟩

instance : IsTrans (SpringBootModuleConfig a) moduleLE :=
  ⟨fun _ _ _ h1 h2 => le_trans h1 h2⟩

/-- [...this.modules].sort((a, b) => (a.priority ?? 0) - (b.priority ?? 0)):
    JS Array.prototype.sort is specified stable (ES2019), and the comparator
    is consistent with the total preorder moduleLE, so the call denotes the
    stable sort by ascending priority key, realised here as the stable
    insertion sort. -/
def sortByPriority (l : List (SpringBootModuleConfig a)) :
    List (SpringBootModuleConfig a) :=
  l.insertionSort moduleLE

/-- Phase 1 of applyTo: for each module of the sorted list with
    enabled === true, invoke
    generator.composeWithJHipster(module, \x7b generatorOptions: config \x7d),
    awaited sequentially; a thrown error aborts the loop and propagates
    (the generator object keeps the effects already applied). -/
def applyModules : Generator a e → List (SpringBootModuleConfig a) →
    Generator a e × Option e
  | g, [] => (g, none)
  | g, m :: ms =>
    if m.enabled then
      let g1 := { g with composeCalls := g.composeCalls ++ [(m.module, m.config)] }
      match g.composeWithJHipster m.module m.config with
      | Except.error err => (g1, some err)
      | Except.ok _ => applyModules g1 ms
    else
      applyModules g ms

/-- async applyTo(generator): sort the modules by priority, compose the
    enabled ones in order, then apply every property override, then add
    every dependency.  A composition error propagates: the remaining
    modules and both later phases are skipped. -/
def applyTo [JSFalsy a] (s : SpringBootModuleInjector a) (g : Generator a e) :
    Generator a e × Option e :=
  let sortedModules := sortByPriority s.modules
  let res := applyModules g sortedModules
  match res.snd with
  | some err => (res.fst, some err)
  | none =>
    let g2 := s.propertyOverrides.foldl applyPropertyOverride res.fst
    let g3 := s.dependencies.foldl addDependencyToGenerator g2
    (g3, none)

/-- The pair handed to composeWithJHipster for one module request: the
    identifier and the generatorOptions payload. -/
def composeCallOf (m : SpringBootModuleConfig a) : String × Option a :=
  (m.module, m.config)

/-! ## Lemmas about the priority sort -/

/-- The sorted module list is a permutation of the original list. -/
theorem sortByPriority_perm (l : List (SpringBootModuleConfig a)) :
    List.Perm (sortByPriority l) l :=
  List.perm_insertionSort moduleLE l

/-- The sorted module list has nondecreasing priority keys. -/
theorem sortByPriority_sorted (l : List (SpringBootModuleConfig a)) :
    List.Sorted moduleLE (sortByPriority l) :=
  List.sorted_insertionSort moduleLE l

theorem filter_orderedInsert_of_key_eq {x : SpringBootModuleConfig a}
    {p : Int} (hx : priorityKey x = p) :
    ∀ L : List (SpringBootModuleConfig a),
      (L.orderedInsert moduleLE x).filter (fun m => priorityKey m == p) =
        x :: L.filter (fun m => priorityKey m == p)
  | [] => by simp [List.orderedInsert, hx]
  | y :: ys => by
    by_cases hxy : moduleLE x y
    · simp [List.orderedInsert, hxy, List.filter_cons, hx]
    · have hy : priorityKey y ≠ p := by
        intro hyp
        exact hxy (le_of_eq (hx.trans hyp.symm))
      simp only [List.orderedInsert, if_neg hxy, List.filter_cons]
      rw [filter_orderedInsert_of_key_eq hx ys]
      simp [hy]

theorem filter_orderedInsert_of_key_ne {x : SpringBootModuleConfig a}
    {p : Int} (hx : priorityKey x ≠ p) :
    ∀ L : List (SpringBootModuleConfig a),
      (L.orderedInsert moduleLE x).filter (fun m => priorityKey m == p) =
        L.filter (fun m => priorityKey m == p)
  | [] => by simp [List.orderedInsert, hx]
  | y :: ys => by
    by_cases hxy : moduleLE x y
    · simp [List.orderedInsert, hxy, List.filter_cons, hx]
    · simp only [List.orderedInsert, if_neg hxy, List.filter_cons]
      rw [filter_orderedInsert_of_key_ne hx ys]

/-- Stability: for every priority value, the sorted list restricted to the
    requests of exactly that priority is the original list so restricted —
    equal-priority requests keep their insertion order. -/
theorem sortByPriority_stable (l : List (SpringBootModuleConfig a))
    (p : Int) :
    (sortByPriority l).filter (fun m => priorityKey m == p) =
      l.filter (fun m => priorityKey m == p) := by
  induction l with
  | nil => rfl
  | cons x xs ih =>
    show ((xs.insertionSort moduleLE).orderedInsert moduleLE x).filter _ = _
    simp only [sortByPriority] at ih
    by_cases hx : priorityKey x = p
    · rw [filter_orderedInsert_of_key_eq hx, ih]
      simp [List.filter_cons, hx]
    · rw [filter_orderedInsert_of_key_ne hx, ih]
      simp [List.filter_cons, hx]

theorem orderedInsert_of_forall_le {x : SpringBootModuleConfig a}
    {M : List (SpringBootModuleConfig a)} (h : ∀ z ∈ M, moduleLE x z) :
    M.orderedInsert moduleLE x = x :: M := by
  cases M with
  | nil => rfl
  | cons z rest =>
    simp [List.orderedInsert, h z (List.mem_cons_self z rest)]

theorem filter_orderedInsert (q : SpringBootModuleConfig a → Bool)
    (x : SpringBootModuleConfig a) :
    ∀ L : List (SpringBootModuleConfig a), L.Sorted moduleLE →
      (L.orderedInsert moduleLE x).filter q =
        if q x then (L.filter q).orderedInsert moduleLE x else L.filter q
  | [], _ => by
    by_cases hq : q x <;> simp [List.orderedInsert, List.filter_cons, hq]
  | y :: ys, hs => by
    have hy : ∀ z ∈ ys, moduleLE y z := List.rel_of_sorted_cons hs
    have hys : List.Sorted moduleLE ys := hs.of_cons
    by_cases hxy : moduleLE x y
    · have hall : ∀ z ∈ (y :: ys).filter q, moduleLE x z := by
        intro z hz
        have hz2 := List.mem_of_mem_filter hz
        rcases List.mem_cons.mp hz2 with h | h
        · exact h ▸ hxy
        · exact Trans.trans hxy (hy z h)
      by_cases hq : q x
      · rw [orderedInsert_of_forall_le hall]
        simp [List.orderedInsert, hxy, List.filter_cons, hq]
      · simp [List.orderedInsert, hxy, List.filter_cons, hq]
    · simp only [List.orderedInsert, if_neg hxy, List.filter_cons]
      rw [filter_orderedInsert q x ys hys]
      by_cases hq : q x
      · by_cases hqy : q y
        · simp [hq, hqy, List.orderedInsert, hxy]
        · simp [hq, hqy]
      · by_cases hqy : q y <;> simp [hq, hqy]

/-- Stable sorting commutes with filtering: filtering the sorted list is
    sorting the filtered list. -/
theorem filter_sortByPriority (q : SpringBootModuleConfig a → Bool)
    (l : List (SpringBootModuleConfig a)) :
    (sortByPriority l).filter q = sortByPriority (l.filter q) := by
  induction l with
  | nil => rfl
  | cons x xs ih =>
    show ((xs.insertionSort moduleLE).orderedInsert moduleLE x).filter q = _
    simp only [sortByPriority] at ih
    rw [filter_orderedInsert q x _ (List.sorted_insertionSort moduleLE xs)]
    by_cases hq : q x
    · rw [if_pos hq, ih]
      simp [List.filter_cons, hq, sortByPriority, List.insertionSort]
    · rw [if_neg hq, ih]
      simp [List.filter_cons, hq, sortByPriority]

/-! ## Frame lemmas: which generator fields each phase leaves untouched -/

theorem foldl_proj_eq {γ : Type _} {κ : Type _}
    (f : Generator a e → γ → Generator a e) (P : Generator a e → κ)
    (hf : ∀ g x, P (f g x) = P g) :
    ∀ (l : List γ) (g : Generator a e), P (l.foldl f g) = P g
  | [], _ => rfl
  | x :: xs, g => by
    rw [List.foldl_cons, foldl_proj_eq f P hf xs (f g x), hf]

theorem applyPropertyOverride_composeCalls (g : Generator a e)
    (p : SpringBootPropertyOverride a) :
    (applyPropertyOverride g p).composeCalls = g.composeCalls := by
  unfold applyPropertyOverride
  cases p.profiles with
  | none => rfl
  | some ps =>
    show (ps.foldl (fun gg pv => writeConfig gg (p.property ++ "@" ++ pv.1) pv.2)
        (writeConfig g p.property p.value)).composeCalls = g.composeCalls
    exact foldl_proj_eq (fun gg pv => writeConfig gg (p.property ++ "@" ++ pv.1) pv.2)
      Generator.composeCalls (fun _ _ => rfl) ps (writeConfig g p.property p.value)

theorem applyPropertyOverride_depWrites (g : Generator a e)
    (p : SpringBootPropertyOverride a) :
    (applyPropertyOverride g p).depWrites = g.depWrites := by
  unfold applyPropertyOverride
  cases p.profiles with
  | none => rfl
  | some ps =>
    show (ps.foldl (fun gg pv => writeConfig gg (p.property ++ "@" ++ pv.1) pv.2)
        (writeConfig g p.property p.value)).depWrites = g.depWrites
    exact foldl_proj_eq (fun gg pv => writeConfig gg (p.property ++ "@" ++ pv.1) pv.2)
      Generator.depWrites (fun _ _ => rfl) ps (writeConfig g p.property p.value)

theorem addDependencyToGenerator_composeCalls [JSFalsy a] (g : Generator a e)
    (dep : SpringBootDependencyConfig) :
    (addDependencyToGenerator g dep).composeCalls = g.composeCalls := rfl

theorem addDependencyToGenerator_configWrites [JSFalsy a] (g : Generator a e)
    (dep : SpringBootDependencyConfig) :
    (addDependencyToGenerator g dep).configWrites = g.configWrites := rfl

theorem applyModules_fst_fields :
    ∀ (L : List (SpringBootModuleConfig a)) (g : Generator a e),
      (applyModules g L).fst.jhipsterConfig = g.jhipsterConfig ∧
      (applyModules g L).fst.configWrites = g.configWrites ∧
      (applyModules g L).fst.depWrites = g.depWrites ∧
      (applyModules g L).fst.composeWithJHipster = g.composeWithJHipster
  | [], g => ⟨rfl, rfl, rfl, rfl⟩
  | m :: ms, g => by
    by_cases hm : m.enabled
    · simp only [applyModules, if_pos hm]
      cases g.composeWithJHipster m.module m.config with
      | error err => exact ⟨rfl, rfl, rfl, rfl⟩
      | ok u => exact applyModules_fst_fields ms _
    · simp only [applyModules, if_neg hm]
      exact applyModules_fst_fields ms g

/-! ## Run lemmas for the module phase -/

/-- When the generator accepts every composition call of the list, the
    module phase completes without error and the call log grows by exactly
    the enabled requests, in list order, projected to (identifier, config). -/
theorem applyModules_ok :
    ∀ (L : List (SpringBootModuleConfig a)) (g : Generator a e),
      (∀ m ∈ L, g.composeWithJHipster m.module m.config = Except.ok ()) →
      applyModules g L =
        ({ g with composeCalls :=
            g.composeCalls ++ (L.filter (fun m => m.enabled)).map composeCallOf },
          none)
  | [], g, _ => by simp [applyModules]
  | m :: ms, g, hok => by
    have hm0 : g.composeWithJHipster m.module m.config = Except.ok () :=
      hok m (List.mem_cons_self m ms)
    by_cases hm : m.enabled
    · simp only [applyModules, if_pos hm, hm0]
      have ih := applyModules_ok ms
        { g with composeCalls := g.composeCalls ++ [(m.module, m.config)] }
        (fun m2 hm2 => hok m2 (List.mem_cons_of_mem m hm2))
      rw [ih]
      simp [List.filter_cons, hm, composeCallOf]
    · simp only [applyModules, if_neg hm]
      rw [applyModules_ok ms g (fun m2 hm2 => hok m2 (List.mem_cons_of_mem m hm2))]
      simp [List.filter_cons, hm]

/-- The module phase is insensitive to disabled requests: it behaves exactly
    like the same run over the enabled requests alone. -/
theorem applyModules_filter_enabled :
    ∀ (L : List (SpringBootModuleConfig a)) (g : Generator a e),
      applyModules g L = applyModules g (L.filter (fun m => m.enabled))
  | [], _ => rfl
  | m :: ms, g => by
    by_cases hm : m.enabled
    · simp only [applyModules, List.filter_cons, hm, if_pos]
      cases g.composeWithJHipster m.module m.config with
      | error err => rfl
      | ok u => exact applyModules_filter_enabled ms _
    · simp only [applyModules, List.filter_cons, hm]
      simpa using applyModules_filter_enabled ms g

/-! ## Characterising the property-map writes -/

theorem lookupAssoc_setAssoc (m : List (String × b)) (k k2 : String) (v : b) :
    lookupAssoc (setAssoc m k v) k2 =
      if k = k2 then some v else lookupAssoc m k2 := by
  induction m with
  | nil => simp [setAssoc, lookupAssoc]
  | cons kv rest ih =>
    obtain ⟨k1, v1⟩ := kv
    by_cases h1 : k1 = k
    · subst h1
      by_cases h2 : k1 = k2 <;> simp [setAssoc, lookupAssoc, h2]
    · by_cases h2 : k1 = k2
      · subst h2
        have : ¬ k = k1 := fun h => h1 h.symm
        simp [setAssoc, lookupAssoc, h1, this]
      · simp [setAssoc, lookupAssoc, h1, h2, ih]

theorem getValue_writeConfig (g : Generator a e) (k k2 : String) (v : a) :
    getValue (writeConfig g k v) k2 =
      if k = k2 then some (ConfigValue.val v) else getValue g k2 := by
  simp [getValue, writeConfig, lookupAssoc_setAssoc]

/-- The sequence of (key, value) assignments one property override performs
    on the target property map: the base write, then one synthetic write per
    profile entry, in map insertion order. -/
def writesOf (p : SpringBootPropertyOverride a) : List (String × a) :=
  (p.property, p.value) ::
    (p.profiles.getD []).map (fun pv => (p.property ++ "@" ++ pv.1, pv.2))

/-- Replay a list of raw (key, value) assignments on the target map. -/
def applyWrites (g : Generator a e) (ws : List (String × a)) : Generator a e :=
  ws.foldl (fun gg kv => writeConfig gg kv.1 kv.2) g

theorem applyPropertyOverride_eq_applyWrites (g : Generator a e)
    (p : SpringBootPropertyOverride a) :
    applyPropertyOverride g p = applyWrites g (writesOf p) := by
  unfold applyPropertyOverride writesOf applyWrites
  cases p.profiles with
  | none => rfl
  | some ps =>
    show ps.foldl _ _ = (ps.map _).foldl _ _
    rw [List.foldl_map]

theorem applyWrites_append (g : Generator a e) (ws1 ws2 : List (String × a)) :
    applyWrites g (ws1 ++ ws2) = applyWrites (applyWrites g ws1) ws2 :=
  List.foldl_append _ _ _ _

/-- The value the final assignment to key k among the write list leaves
    behind, if any assignment targets k at all. -/
def lastValue : List (String × b) → String → Option b
  | [], _ => none
  | (k1, v1) :: rest, k =>
    match lastValue rest k with
    | some r => some r
    | none => if k1 = k then some v1 else none

theorem getValue_applyWrites (ws : List (String × a)) :
    ∀ g : Generator a e,  ∀ k,
      getValue (applyWrites g ws) k =
        match lastValue ws k with
        | some v => some (ConfigValue.val v)
        | none => getValue g k := by
  induction ws with
  | nil => intro g k; simp [applyWrites, lastValue]
  | cons kv rest ih =>
    intro g k
    obtain ⟨k1, v1⟩ := kv
    show getValue (applyWrites (writeConfig g k1 v1) rest) k = _
    rw [ih]
    cases hrest : lastValue rest k with
    | some r => simp [lastValue, hrest]
    | none =>
      rw [getValue_writeConfig]
      by_cases h1 : k1 = k <;> simp [lastValue, hrest, h1]

theorem lastValue_append (ws1 ws2 : List (String × b)) (k : String) :
    lastValue (ws1 ++ ws2) k =
      match lastValue ws2 k with
      | some r => some r
      | none => lastValue ws1 k := by
  induction ws1 with
  | nil => cases h2 : lastValue ws2 k <;> simp [lastValue, h2]
  | cons kv rest ih =>
    obtain ⟨k1, v1⟩ := kv
    show lastValue ((k1, v1) :: (rest ++ ws2)) k = _
    cases h2 : lastValue ws2 k with
    | some r => simp [lastValue, ih, h2]
    | none => simp [lastValue, ih, h2]

theorem lastValue_eq_none (ws : List (String × b)) (k : String)
    (h : ∀ kv ∈ ws, kv.1 ≠ k) : lastValue ws k = none := by
  induction ws with
  | nil => rfl
  | cons kv rest ih =>
    obtain ⟨k1, v1⟩ := kv
    have h1 : k1 ≠ k := h (k1, v1) (List.mem_cons_self _ _)
    have hrest := ih (fun kv2 hkv2 => h kv2 (List.mem_cons_of_mem _ hkv2))
    simp [lastValue, hrest, h1]

/-- All property-map assignments of a list of overrides, in apply order. -/
def writesOfList : List (SpringBootPropertyOverride a) → List (String × a)
  | [] => []
  | p :: rest => writesOf p ++ writesOfList rest

theorem foldl_applyPropertyOverride_eq (l : List (SpringBootPropertyOverride a)) :
    ∀ g : Generator a e,
      l.foldl applyPropertyOverride g = applyWrites g (writesOfList l) := by
  induction l with
  | nil => intro g; rfl
  | cons p rest ih =>
    intro g
    show rest.foldl applyPropertyOverride (applyPropertyOverride g p) = _
    rw [ih, applyPropertyOverride_eq_applyWrites]
    show _ = applyWrites g (writesOf p ++ writesOfList rest)
    rw [applyWrites_append]

/-- The last override of the list whose property path is p, if any. -/
def lastMatching : List (SpringBootPropertyOverride a) → String →
    Option (SpringBootPropertyOverride a)
  | [], _ => none
  | q :: rest, p =>
    match lastMatching rest p with
    | some r => some r
    | none => if q.property = p then some q else none

/-- When no synthetic profile key of any override collides with path p, the
    final value the override phase leaves under p is the value of the last
    override registered with path p. -/
theorem lastValue_writesOfList (l : List (SpringBootPropertyOverride a))
    (p : String)
    (hnocol : ∀ q ∈ l, ∀ pv ∈ q.profiles.getD [], q.property ++ "@" ++ pv.1 ≠ p) :
    lastValue (writesOfList l) p =
      (lastMatching l p).map (fun q => q.value) := by
  induction l with
  | nil => rfl
  | cons q rest ih =>
    have hq : lastValue (writesOf q) p =
        if q.property = p then some q.value else none := by
      have hprof : lastValue
          ((q.profiles.getD []).map
            (fun pv => (q.property ++ "@" ++ pv.1, pv.2))) p = none := by
        apply lastValue_eq_none
        intro kv hkv
        obtain ⟨pv, hpv, hkveq⟩ := List.mem_map.mp hkv
        have hne := hnocol q (List.mem_cons_self _ _) pv hpv
        subst hkveq
        exact hne
      simp [writesOf, lastValue, hprof]
    have hrest := ih (fun q2 hq2 => hnocol q2 (List.mem_cons_of_mem _ hq2))
    show lastValue (writesOf q ++ writesOfList rest) p = _
    rw [lastValue_append]
    cases hlm : lastMatching rest p with
    | some r =>
      rw [hlm] at hrest
      rw [hrest]
      show some r.value = _
      simp [lastMatching, hlm]
    | none =>
      rw [hlm] at hrest
      simp only [Option.map_none'] at hrest
      rw [hrest]
      show lastValue (writesOf q) p = _
      rw [hq]
      by_cases hqp : q.property = p <;> simp [lastMatching, hlm, hqp]

/-! ## A reference-store model of the array-copy semantics

The class stores its three lists in mutable array fields, and the accessors
return spread copies ([...this.modules]).  To state that the copies are
independent of the builder (claim C3), lists are placed in an explicit
store of numbered references: each builder field holds a reference, a
mutator writes through the builder reference, and an accessor allocates a
fresh reference holding the current contents (the spread copy). -/

structure RefStore (b : Type) where
  next : Nat
  mem : Nat → List b

def RefStore.read (s : RefStore b) (r : Nat) : List b := s.mem r

def RefStore.write (s : RefStore b) (r : Nat) (l : List b) : RefStore b :=
  { s with mem := fun i => if i = r then l else s.mem i }

def RefStore.alloc (s : RefStore b) (l : List b) : Nat × RefStore b :=
  (s.next,
   { next := s.next + 1, mem := fun i => if i = s.next then l else s.mem i })

/-- The builder with its three array fields as store references. -/
structure HInjector (a : Type) where
  mStore : RefStore (SpringBootModuleConfig a)
  mRef : Nat
  pStore : RefStore (SpringBootPropertyOverride a)
  pRef : Nat
  dStore : RefStore SpringBootDependencyConfig
  dRef : Nat

/-- The three builder references are live (below the allocation frontier). -/
def HInjector.WF (st : HInjector a) : Prop :=
  st.mRef < st.mStore.next ∧ st.pRef < st.pStore.next ∧
    st.dRef < st.dStore.next

/-- injectModule in the store model: this.modules.push(entry). -/
def hInjectModule (st : HInjector a) (m : String)
    (cfg : Option (InjectOptions a)) : HInjector a :=
  let cur := st.mStore.read st.mRef
  { st with mStore := st.mStore.write st.mRef (cur ++ [moduleEntryOf m cfg]) }

/-- overrideProperty in the store model. -/
def hOverrideProperty (st : HInjector a) (property : String) (value : a)
    (options : OverrideOptions a) : HInjector a :=
  let cur := st.pStore.read st.pRef
  let entry := overrideEntryOf property value options
  { st with pStore := st.pStore.write st.pRef (cur ++ [entry]) }

/-- addDependency in the store model. -/
def hAddDependency (st : HInjector a) (config : SpringBootDependencyConfig) :
    HInjector a :=
  let cur := st.dStore.read st.dRef
  { st with dStore := st.dStore.write st.dRef (cur ++ [config]) }

/-- getModules() in the store model: [...this.modules] allocates a fresh
    array holding the current contents and returns its reference. -/
def hGetModules (st : HInjector a) : Nat × HInjector a :=
  let res := st.mStore.alloc (st.mStore.read st.mRef)
  (res.1, { st with mStore := res.2 })

/-- getPropertyOverrides() in the store model. -/
def hGetPropertyOverrides (st : HInjector a) : Nat × HInjector a :=
  let res := st.pStore.alloc (st.pStore.read st.pRef)
  (res.1, { st with pStore := res.2 })

/-- getDependencies() in the store model. -/
def hGetDependencies (st : HInjector a) : Nat × HInjector a :=
  let res := st.dStore.alloc (st.dStore.read st.dRef)
  (res.1, { st with dStore := res.2 })

/-! ## Fixtures for concrete instances -/

/-- A generator accepting every composition call, with empty state. -/
def emptyGenerator (a e : Type) : Generator a e :=
  { composeWithJHipster := fun _ _ => Except.ok (),
    composeCalls := [], jhipsterConfig := [],
    configWrites := [], depWrites := [] }

/-- An enabled module request with the given identifier and priority. -/
def mkModule (idf : String) (pr : Int) : SpringBootModuleConfig Unit :=
  { module := idf, enabled := true, config := none, priority := some pr }

/-! ## Claim theorems -/

theorem applyWrites_configWrites (ws : List (String × a)) :
    ∀ g : Generator a e,
      (applyWrites g ws).configWrites = g.configWrites ++ ws := by
  induction ws with
  | nil => intro g; simp [applyWrites]
  | cons kv rest ih =>
    intro g
    obtain ⟨k, v⟩ := kv
    show (applyWrites (writeConfig g k v) rest).configWrites = _
    rw [ih]
    simp [writeConfig]

theorem foldl_injectModule (calls : List (String × Option (InjectOptions a))) :
    ∀ s : SpringBootModuleInjector a,
      (calls.foldl (fun s2 c => injectModule s2 c.1 c.2) s).modules =
        s.modules ++ calls.map (fun c => moduleEntryOf c.1 c.2) := by
  induction calls with
  | nil => intro s; simp
  | cons c rest ih =>
    intro s
    show (rest.foldl _ (injectModule s c.1 c.2)).modules = _
    rw [ih]
    simp [injectModule]

/-- A sequence of registerModule calls, replayed on a fresh builder. -/
def runRegistrations (calls : List (String × Option (InjectOptions a))) :
    SpringBootModuleInjector a :=
  calls.foldl (fun s c => injectModule s c.1 c.2) (createSpringBootInjector a)

/-- Claim C2: after any sequence of registerModule (injectModule) calls,
    getModules() has one entry per call, in order; each entry carries the
    call's identifier and config, where an omitted config yields the default
    with enabled = true, and a supplied config contributes all of its fields
    (explicit fields overwrite the defaults). -/
theorem claim2_getModules_matches_registrations
    (calls : List (String × Option (InjectOptions a))) :
    (getModules (runRegistrations calls)).length = calls.length ∧
    getModules (runRegistrations calls) =
      calls.map (fun c => moduleEntryOf c.1 c.2) ∧
    (∀ m : String, moduleEntryOf (a := a) m none =
      { module := m, enabled := true, config := none, priority := none }) ∧
    (∀ (m : String) (c : InjectOptions a), moduleEntryOf m (some c) =
      { module := m, enabled := c.enabled, config := c.config,
        priority := c.priority }) := by
  have hmods : getModules (runRegistrations calls) =
      calls.map (fun c => moduleEntryOf c.1 c.2) := by
    show (runRegistrations calls).modules = _
    rw [runRegistrations, foldl_injectModule]
    rfl
  refine ⟨?_, hmods, fun m => rfl, fun m c => rfl⟩
  rw [hmods, List.length_map]

/-- Claim C8: applyTo on a builder with zero registered modules, property
    overrides and dependencies performs zero composition calls and zero map
    writes and completes without error: it returns the generator unchanged,
    paired with no error. -/
theorem claim8_applyTo_empty_builder [JSFalsy a] (g : Generator a e) :
    applyTo (createSpringBootInjector a) g = (g, none) ∧
    (applyTo (createSpringBootInjector a) g).fst.composeCalls =
      g.composeCalls ∧
    (applyTo (createSpringBootInjector a) g).fst.configWrites =
      g.configWrites ∧
    (applyTo (createSpringBootInjector a) g).fst.depWrites = g.depWrites :=
  ⟨rfl, rfl, rfl, rfl⟩

/-- On a generator that accepts every composition call, applyTo runs all
    three phases: it logs the enabled sorted modules, then replays the
    overrides, then the dependencies, and reports no error. -/
theorem applyTo_ok [JSFalsy a] (s : SpringBootModuleInjector a) (g : Generator a e)
    (hok : ∀ idf c, g.composeWithJHipster idf c = Except.ok ()) :
    applyTo s g =
      (s.dependencies.foldl addDependencyToGenerator
        (s.propertyOverrides.foldl applyPropertyOverride
          { g with composeCalls := g.composeCalls ++ ((sortByPriority s.modules).filter (fun m => m.enabled)).map composeCallOf }),
       none) := by
  have hrun := applyModules_ok (sortByPriority s.modules) g
    (fun m _ => hok m.module m.config)
  simp only [applyTo, hrun]

/-- Claim C5: for every property override, applyTo writes the base value
    under the override's path and, when a profiles map is present, one
    additional entry per (profile, value) pair under path ++ "@" ++ profile,
    in the profile map's insertion order; the full write log of a run is the
    in-order concatenation of these per-override write lists. -/
theorem claim5_property_override_writes [JSFalsy a]
    (s : SpringBootModuleInjector a) (g : Generator a e)
    (hok : ∀ idf c, g.composeWithJHipster idf c = Except.ok ()) :
    (applyTo s g).fst.configWrites =
      g.configWrites ++ writesOfList s.propertyOverrides ∧
    ∀ p : SpringBootPropertyOverride a,
      writesOf p = (p.property, p.value) ::
        (p.profiles.getD []).map (fun pv => (p.property ++ "@" ++ pv.1, pv.2)) := by
  refine ⟨?_, fun p => rfl⟩
  rw [applyTo_ok s g hok]
  show (s.dependencies.foldl addDependencyToGenerator _).configWrites = _
  rw [foldl_proj_eq addDependencyToGenerator Generator.configWrites
    (fun g2 d => rfl) s.dependencies]
  rw [foldl_applyPropertyOverride_eq, applyWrites_configWrites]

/-- The two dependency registrations of the last-write-wins example:
    versions 1.0.0 then 2.0.0 for com.example:lib. -/
def depLib1 : SpringBootDependencyConfig :=
  { groupId := "com.example", artifactId := "lib", version := some "1.0.0",
    scope := none, optional := none, exclusions := none }

def depLib2 : SpringBootDependencyConfig :=
  { groupId := "com.example", artifactId := "lib", version := some "2.0.0",
    scope := none, optional := none, exclusions := none }

def c6Injector : SpringBootModuleInjector Unit :=
  { modules := [], propertyOverrides := [], dependencies := [depLib1, depLib2] }

/-- A dependency declared without a version. -/
def depNoVersion : SpringBootDependencyConfig :=
  { groupId := "g", artifactId := "x", version := none,
    scope := none, optional := none, exclusions := none }

/-- A single dependency write reads as its version under its composite key
    and leaves every other dependency-map read unchanged, whatever currently
    sits under jhipsterConfig["springBootDependencies"]. -/
theorem getDep_addDependencyToGenerator [JSFalsy a] (g : Generator a e)
    (dep : SpringBootDependencyConfig) (k : String) :
    getDep (addDependencyToGenerator g dep) k =
      if dep.groupId ++ ":" ++ dep.artifactId = k
      then some (dep.version.getD "BOM")
      else getDep g k := by
  cases hcur : lookupAssoc g.jhipsterConfig "springBootDependencies" with
  | none =>
    simp [getDep, addDependencyToGenerator, lookupAssoc_setAssoc, hcur,
      lookupAssoc]
  | some cv =>
    cases cv with
    | val x =>
      by_cases hf : JSFalsy.falsy x <;>
        simp [getDep, addDependencyToGenerator, lookupAssoc_setAssoc, hcur,
          hf, lookupAssoc]
    | depMap m =>
      simp [getDep, addDependencyToGenerator, lookupAssoc_setAssoc, hcur]
    | valDeps x m =>
      simp [getDep, addDependencyToGenerator, lookupAssoc_setAssoc, hcur]

/-- A dependency write touches only the springBootDependencies key of
    jhipsterConfig: every other property read is unchanged. -/
theorem getValue_addDependencyToGenerator_ne [JSFalsy a] (g : Generator a e)
    (dep : SpringBootDependencyConfig) (k : String)
    (hk : k ≠ "springBootDependencies") :
    getValue (addDependencyToGenerator g dep) k = getValue g k := by
  have hk2 : ¬ ("springBootDependencies" = k) := fun h => hk h.symm
  simp [getValue, addDependencyToGenerator, lookupAssoc_setAssoc, hk2]

/-- Claim C6: each dependency declaration writes, under the composite key
    groupId ++ ":" ++ artifactId, the declared version or the literal "BOM"
    when the version is absent, overwriting any earlier value under the same
    key (last-write-wins); in particular registering 1.0.0 then 2.0.0 for
    com.example:lib leaves only 2.0.0 under com.example:lib. -/
theorem claim6_dependency_key_version_bom [JSFalsy a] (g : Generator a e)
    (dep : SpringBootDependencyConfig) :
    (∀ k, getDep (addDependencyToGenerator g dep) k =
      if dep.groupId ++ ":" ++ dep.artifactId = k
      then some (dep.version.getD "BOM")
      else getDep g k) ∧
    (∀ d1 d2 : SpringBootDependencyConfig,
      getDep (addDependencyToGenerator (addDependencyToGenerator g d1) d2)
        (d2.groupId ++ ":" ++ d2.artifactId) = some (d2.version.getD "BOM")) ∧
    (applyTo c6Injector (emptyGenerator Unit Unit)).snd = none ∧
    lookupAssoc (applyTo c6Injector (emptyGenerator Unit Unit)).fst.jhipsterConfig
      "springBootDependencies" =
      some (ConfigValue.depMap [("com.example:lib", "2.0.0")]) ∧
    getDep (addDependencyToGenerator (emptyGenerator Unit Unit) depNoVersion)
      "g:x" = some "BOM" := by
  refine ⟨getDep_addDependencyToGenerator g dep, ?_, by decide, by decide,
    by decide⟩
  intro d1 d2
  simp [getDep_addDependencyToGenerator]

/-- Three enabled modules A(priority 2), B(priority 1), C(priority 1),
    registered in that order. -/
def c1Injector : SpringBootModuleInjector Unit :=
  { modules := [mkModule "A" 2, mkModule "B" 1, mkModule "C" 1],
    propertyOverrides := [], dependencies := [] }

/-- Claim C1: applyTo invokes composeWithJHipster exactly for the enabled
    requests, in the order of the priority-sorted module list; that sorted
    list is a permutation of the registrations with nondecreasing priority
    keys (missing priority read as 0), and requests of equal priority keep
    their insertion order (stable sort); for A(2), B(1), C(1) inserted in
    that order the call order is B, C, A. -/
theorem claim1_applyTo_stable_priority_order [JSFalsy a]
    (s : SpringBootModuleInjector a) (g : Generator a e)
    (hok : ∀ idf c, g.composeWithJHipster idf c = Except.ok ()) :
    (applyTo s g).snd = none ∧
    (applyTo s g).fst.composeCalls =
      g.composeCalls ++
        ((sortByPriority s.modules).filter (fun m => m.enabled)).map composeCallOf ∧
    List.Perm (sortByPriority s.modules) s.modules ∧
    List.Sorted moduleLE (sortByPriority s.modules) ∧
    (∀ p : Int, (sortByPriority s.modules).filter (fun m => priorityKey m == p) =
      s.modules.filter (fun m => priorityKey m == p)) ∧
    (applyTo c1Injector (emptyGenerator Unit Unit)).fst.composeCalls =
      [("B", none), ("C", none), ("A", none)] := by
  have happ := applyTo_ok s g hok
  refine ⟨by rw [happ], ?_, sortByPriority_perm s.modules,
    sortByPriority_sorted s.modules, sortByPriority_stable s.modules,
    by decide⟩
  rw [happ]
  show (s.dependencies.foldl addDependencyToGenerator _).composeCalls = _
  rw [foldl_proj_eq addDependencyToGenerator Generator.composeCalls
    (fun g2 d => rfl) s.dependencies]
  rw [foldl_proj_eq applyPropertyOverride Generator.composeCalls
    applyPropertyOverride_composeCalls s.propertyOverrides]

/-- Claim C7: a module request registered with enabled = false never
    produces a composition call — applyTo behaves exactly as if the request
    were absent — yet the request still appears in getModules(). -/
theorem claim7_disabled_module_skipped [JSFalsy a]
    (l1 l2 : List (SpringBootModuleConfig a))
    (po : List (SpringBootPropertyOverride a))
    (dp : List SpringBootDependencyConfig)
    (m : SpringBootModuleConfig a) (g : Generator a e)
    (hm : m.enabled = false) :
    applyTo { modules := l1 ++ m :: l2, propertyOverrides := po,
              dependencies := dp } g =
      applyTo { modules := l1 ++ l2, propertyOverrides := po,
                dependencies := dp } g ∧
    m ∈ getModules { modules := l1 ++ m :: l2, propertyOverrides := po,
                     dependencies := dp } := by
  constructor
  · have hres : applyModules g (sortByPriority (l1 ++ m :: l2)) =
        applyModules g (sortByPriority (l1 ++ l2)) := by
      rw [applyModules_filter_enabled, filter_sortByPriority,
        applyModules_filter_enabled (sortByPriority (l1 ++ l2)),
        filter_sortByPriority]
      have : (l1 ++ m :: l2).filter (fun m2 => m2.enabled) =
          (l1 ++ l2).filter (fun m2 => m2.enabled) := by
        simp [List.filter_append, List.filter_cons, hm]
      rw [this]
    simp only [applyTo, hres]
  · show m ∈ l1 ++ m :: l2
    exact List.mem_append_right l1 (List.mem_cons_self m l2)

/-- When the enabled part of the module list splits as pre ++ mf :: post,
    with every call of pre accepted and the call for mf failing, the module
    phase stops at mf: it logs the calls of pre and the failing call, returns
    that error, and touches nothing else. -/
theorem applyModules_error (e0 : e) :
    ∀ (L : List (SpringBootModuleConfig a)) (g : Generator a e)
      (pre : List (SpringBootModuleConfig a))
      (mf : SpringBootModuleConfig a)
      (post : List (SpringBootModuleConfig a)),
      L.filter (fun m => m.enabled) = pre ++ mf :: post →
      (∀ m ∈ pre, g.composeWithJHipster m.module m.config = Except.ok ()) →
      g.composeWithJHipster mf.module mf.config = Except.error e0 →
      applyModules g L =
        ({ g with composeCalls := g.composeCalls ++ pre.map composeCallOf ++ [composeCallOf mf] }, some e0)
  | [], g, pre, mf, post, hsplit, _, _ => by
    cases pre <;> simp_all
  | m :: ms, g, pre, mf, post, hsplit, hpre, hmf => by
    by_cases hmen : m.enabled
    · have hsplit2 : m :: ms.filter (fun m2 => m2.enabled) =
          pre ++ mf :: post := by
        simpa [List.filter_cons, hmen] using hsplit
      cases pre with
      | nil =>
        simp only [List.nil_append, List.cons.injEq] at hsplit2
        obtain ⟨hmeq, _⟩ := hsplit2
        subst hmeq
        simp only [applyModules, if_pos hmen, hmf]
        simp [composeCallOf]
      | cons p0 pre2 =>
        simp only [List.cons_append, List.cons.injEq] at hsplit2
        obtain ⟨hmeq, hsplit3⟩ := hsplit2
        have hok0 : g.composeWithJHipster m.module m.config = Except.ok () := by
          rw [hmeq]
          exact hpre p0 (List.mem_cons_self _ _)
        simp only [applyModules, if_pos hmen, hok0]
        rw [applyModules_error e0 ms
          { g with composeCalls := g.composeCalls ++ [(m.module, m.config)] }
          pre2 mf post hsplit3
          (fun m2 hm2 => hpre m2 (List.mem_cons_of_mem p0 hm2)) hmf]
        simp [hmeq, composeCallOf, List.append_assoc]
    · have hsplit2 : ms.filter (fun m2 => m2.enabled) = pre ++ mf :: post := by
        simpa [List.filter_cons, hmen] using hsplit
      simp only [applyModules, if_neg hmen]
      exact applyModules_error e0 ms g pre mf post hsplit2 hpre hmf

/-- Claim C4: a failure of the target's composition call is not caught by
    applyTo: the error surfaces as the result, the modules after the failing
    one produce no calls, and the property-override and dependency phases do
    not run — the configuration map (and with it the dependency map stored
    under its springBootDependencies key) and both write logs are exactly as
    before the call (effects already applied, i.e. the earlier composition
    calls, remain). -/
theorem claim4_compose_error_propagates [JSFalsy a]
    (s : SpringBootModuleInjector a)
    (g : Generator a e) (pre : List (SpringBootModuleConfig a))
    (mf : SpringBootModuleConfig a) (post : List (SpringBootModuleConfig a))
    (e0 : e)
    (hsplit : (sortByPriority s.modules).filter (fun m => m.enabled) =
      pre ++ mf :: post)
    (hpre : ∀ m ∈ pre, g.composeWithJHipster m.module m.config = Except.ok ())
    (hmf : g.composeWithJHipster mf.module mf.config = Except.error e0) :
    (applyTo s g).snd = some e0 ∧
    (applyTo s g).fst.composeCalls =
      g.composeCalls ++ pre.map composeCallOf ++ [composeCallOf mf] ∧
    (applyTo s g).fst.jhipsterConfig = g.jhipsterConfig ∧
    (applyTo s g).fst.configWrites = g.configWrites ∧
    (∀ k, getDep (applyTo s g).fst k = getDep g k) ∧
    (applyTo s g).fst.depWrites = g.depWrites := by
  have hrun := applyModules_error e0 (sortByPriority s.modules) g pre mf post
    hsplit hpre hmf
  simp [applyTo, hrun, getDep]

/-- The fields of a property override that applyPropertyOverride reads. -/
def observedOverride (p : SpringBootPropertyOverride a) :
    String × a × Option (List (String × a)) :=
  (p.property, p.value, p.profiles)

/-- The fields of a dependency declaration that addDependencyToGenerator
    reads. -/
def observedDependency (d : SpringBootDependencyConfig) :
    String × String × Option String :=
  (d.groupId, d.artifactId, d.version)

theorem applyPropertyOverride_congr (g : Generator a e)
    {p1 p2 : SpringBootPropertyOverride a}
    (h : observedOverride p1 = observedOverride p2) :
    applyPropertyOverride g p1 = applyPropertyOverride g p2 := by
  have h1 : p1.property = p2.property := congrArg Prod.fst h
  have h2 : p1.value = p2.value := congrArg (fun x => x.2.1) h
  have h3 : p1.profiles = p2.profiles := congrArg (fun x => x.2.2) h
  simp only [applyPropertyOverride, h1, h2, h3]

theorem addDependencyToGenerator_congr [JSFalsy a] (g : Generator a e)
    {d1 d2 : SpringBootDependencyConfig}
    (h : observedDependency d1 = observedDependency d2) :
    addDependencyToGenerator g d1 = addDependencyToGenerator g d2 := by
  have h1 : d1.groupId = d2.groupId := congrArg Prod.fst h
  have h2 : d1.artifactId = d2.artifactId := congrArg (fun x => x.2.1) h
  have h3 : d1.version = d2.version := congrArg (fun x => x.2.2) h
  simp only [addDependencyToGenerator, h1, h2, h3]

theorem foldl_applyPropertyOverride_congr :
    ∀ (l1 l2 : List (SpringBootPropertyOverride a)),
      l1.map observedOverride = l2.map observedOverride →
      ∀ g : Generator a e,
        l1.foldl applyPropertyOverride g = l2.foldl applyPropertyOverride g
  | [], [], _, _ => rfl
  | [], q :: _, h, _ => by simp at h
  | p :: _, [], h, _ => by simp at h
  | p :: r1, q :: r2, h, g => by
    simp only [List.map_cons, List.cons.injEq] at h
    obtain ⟨hpq, hrest⟩ := h
    show r1.foldl applyPropertyOverride (applyPropertyOverride g p) = _
    rw [applyPropertyOverride_congr g hpq]
    exact foldl_applyPropertyOverride_congr r1 r2 hrest _

theorem foldl_addDependencyToGenerator_congr [JSFalsy a] :
    ∀ (l1 l2 : List SpringBootDependencyConfig),
      l1.map observedDependency = l2.map observedDependency →
      ∀ g : Generator a e,
        l1.foldl addDependencyToGenerator g = l2.foldl addDependencyToGenerator g
  | [], [], _, _ => rfl
  | [], q :: _, h, _ => by simp at h
  | p :: _, [], h, _ => by simp at h
  | p :: r1, q :: r2, h, g => by
    simp only [List.map_cons, List.cons.injEq] at h
    obtain ⟨hpq, hrest⟩ := h
    show r1.foldl addDependencyToGenerator (addDependencyToGenerator g p) = _
    rw [addDependencyToGenerator_congr g hpq]
    exact foldl_addDependencyToGenerator_congr r1 r2 hrest _

/-- Claim C9: the effects of applyTo depend only on each override's
    property, value and profiles and on each dependency's groupId,
    artifactId and version: two builders whose registrations differ only in
    an override's type or override flag, or in a dependency's scope,
    optional or exclusions, drive the generator to the same final state. -/
theorem claim9_unused_fields_no_influence [JSFalsy a] (g : Generator a e)
    (s1 s2 : SpringBootModuleInjector a)
    (hm : s1.modules = s2.modules)
    (hp : s1.propertyOverrides.map observedOverride =
      s2.propertyOverrides.map observedOverride)
    (hd : s1.dependencies.map observedDependency =
      s2.dependencies.map observedDependency) :
    applyTo s1 g = applyTo s2 g := by
  have hres : applyModules g (sortByPriority s1.modules) =
      applyModules g (sortByPriority s2.modules) := by rw [hm]
  simp only [applyTo, hres]
  cases hsnd : (applyModules g (sortByPriority s2.modules)).snd with
  | some err => rfl
  | none =>
    rw [foldl_applyPropertyOverride_congr s1.propertyOverrides
      s2.propertyOverrides hp]
    rw [foldl_addDependencyToGenerator_congr s1.dependencies s2.dependencies hd]

/-- Claim C3: each accessor returns a fresh copy of its list.  In the store
    model: the reference an accessor returns holds the current contents of
    the builder's list; mutating the builder afterwards does not change the
    contents behind the returned reference; and writing through the returned
    reference does not change the builder's list. -/
theorem claim3_accessors_return_copies (st : HInjector a) (hwf : st.WF) :
    ((hGetModules st).2.mStore.read (hGetModules st).1 =
      st.mStore.read st.mRef) ∧
    (∀ (m : String) (cfg : Option (InjectOptions a)),
      (hInjectModule (hGetModules st).2 m cfg).mStore.read (hGetModules st).1 =
        (hGetModules st).2.mStore.read (hGetModules st).1) ∧
    (∀ l : List (SpringBootModuleConfig a),
      ((hGetModules st).2.mStore.write (hGetModules st).1 l).read
        (hGetModules st).2.mRef = st.mStore.read st.mRef) ∧
    ((hGetPropertyOverrides st).2.pStore.read (hGetPropertyOverrides st).1 =
      st.pStore.read st.pRef) ∧
    (∀ (property : String) (value : a) (options : OverrideOptions a),
      (hOverrideProperty (hGetPropertyOverrides st).2 property value
        options).pStore.read (hGetPropertyOverrides st).1 =
        (hGetPropertyOverrides st).2.pStore.read (hGetPropertyOverrides st).1) ∧
    (∀ l : List (SpringBootPropertyOverride a),
      ((hGetPropertyOverrides st).2.pStore.write (hGetPropertyOverrides st).1
        l).read (hGetPropertyOverrides st).2.pRef = st.pStore.read st.pRef) ∧
    ((hGetDependencies st).2.dStore.read (hGetDependencies st).1 =
      st.dStore.read st.dRef) ∧
    (∀ config : SpringBootDependencyConfig,
      (hAddDependency (hGetDependencies st).2 config).dStore.read
        (hGetDependencies st).1 =
        (hGetDependencies st).2.dStore.read (hGetDependencies st).1) ∧
    (∀ l : List SpringBootDependencyConfig,
      ((hGetDependencies st).2.dStore.write (hGetDependencies st).1 l).read
        (hGetDependencies st).2.dRef = st.dStore.read st.dRef) := by
  obtain ⟨h1, h2, h3⟩ := hwf
  have hm : st.mRef ≠ st.mStore.next := Nat.ne_of_lt h1
  have hm2 : st.mStore.next ≠ st.mRef := fun h => hm h.symm
  have hp : st.pRef ≠ st.pStore.next := Nat.ne_of_lt h2
  have hp2 : st.pStore.next ≠ st.pRef := fun h => hp h.symm
  have hd : st.dRef ≠ st.dStore.next := Nat.ne_of_lt h3
  have hd2 : st.dStore.next ≠ st.dRef := fun h => hd h.symm
  refine ⟨?_, ?_, ?_, ?_, ?_, ?_, ?_, ?_, ?_⟩
  · simp [hGetModules, RefStore.alloc, RefStore.read]
  · intro m cfg
    simp [hGetModules, hInjectModule, RefStore.alloc, RefStore.read,
      RefStore.write, hm2]
  · intro l
    simp [hGetModules, RefStore.alloc, RefStore.read, RefStore.write, hm, hm2]
  · simp [hGetPropertyOverrides, RefStore.alloc, RefStore.read]
  · intro property value options
    simp [hGetPropertyOverrides, hOverrideProperty, RefStore.alloc,
      RefStore.read, RefStore.write, hp2]
  · intro l
    simp [hGetPropertyOverrides, RefStore.alloc, RefStore.read,
      RefStore.write, hp, hp2]
  · simp [hGetDependencies, RefStore.alloc, RefStore.read]
  · intro config
    simp [hGetDependencies, hAddDependency, RefStore.alloc, RefStore.read,
      RefStore.write, hd2]
  · intro l
    simp [hGetDependencies, RefStore.alloc, RefStore.read, RefStore.write,
      hd, hd2]

/-- The three overrides of the counterexample to claim C10 as stated: o1 and
    o2 share the path "q@r"; the later-registered o3 has path "q" with a
    profile named "r", whose synthetic key "q" ++ "@" ++ "r" collides with
    that path. -/
def c10o1 : SpringBootPropertyOverride Nat :=
  { property := "q@r", value := 1, type := none, override := none,
    profiles := none }

def c10o2 : SpringBootPropertyOverride Nat :=
  { property := "q@r", value := 2, type := none, override := none,
    profiles := none }

def c10o3 : SpringBootPropertyOverride Nat :=
  { property := "q", value := 9, type := none, override := none,
    profiles := some [("r", 7)] }

def c10Injector : SpringBootModuleInjector Nat :=
  { modules := [], propertyOverrides := [c10o1, c10o2, c10o3],
    dependencies := [] }

/-- The two overrides of the second counterexample scenario: both target
    the literal path "springBootDependencies", the later one with the falsy
    value 0, and neither has a profiles map. -/
def c10p1 : SpringBootPropertyOverride Nat :=
  { property := "springBootDependencies", value := 1, type := none,
    override := none, profiles := none }

def c10p2 : SpringBootPropertyOverride Nat :=
  { property := "springBootDependencies", value := 0, type := none,
    override := none, profiles := none }

def c10Injector2 : SpringBootModuleInjector Nat :=
  { modules := [], propertyOverrides := [c10p1, c10p2],
    dependencies := [depNoVersion] }

/-- Claim C10 as stated is false on the code, in two ways.  (1) The
    overrides with path "q@r" are o1 then o2 (the later one has value 2),
    applyTo completes successfully, yet the property map holds the payload 7
    under "q@r": the profile write of the later override o3 (path "q",
    profile "r", value 7) lands on the same key.  (2) Without any profiles
    at all: overrides p1, p2 share the path "springBootDependencies" (the
    later one ends with the falsy value 0); one registered dependency makes
    the dependency phase re-initialise that key and write the entry, so
    after a successful applyTo the key holds the dependency map, not the
    later-registered override's value 0. -/
theorem claim10_counterexample :
    (c10Injector.propertyOverrides.filter (fun q => q.property == "q@r") =
      [c10o1, c10o2] ∧
    c10o2.value = 2 ∧
    (applyTo c10Injector (emptyGenerator Nat Unit)).snd = none ∧
    getValue (applyTo c10Injector (emptyGenerator Nat Unit)).fst "q@r" =
      some (ConfigValue.val 7) ∧
    getValue (applyTo c10Injector (emptyGenerator Nat Unit)).fst "q@r" ≠
      some (ConfigValue.val c10o2.value)) ∧
    (c10Injector2.propertyOverrides.filter
      (fun q => q.property == "springBootDependencies") = [c10p1, c10p2] ∧
    (∀ q ∈ c10Injector2.propertyOverrides, q.profiles = none) ∧
    c10p2.value = 0 ∧
    (applyTo c10Injector2 (emptyGenerator Nat Unit)).snd = none ∧
    getValue (applyTo c10Injector2 (emptyGenerator Nat Unit)).fst
      "springBootDependencies" = some (ConfigValue.depMap [("g:x", "BOM")]) ∧
    getValue (applyTo c10Injector2 (emptyGenerator Nat Unit)).fst
      "springBootDependencies" ≠ some (ConfigValue.val c10p2.value)) := by
  refine ⟨⟨by decide, rfl, rfl, by decide, by decide⟩,
    ⟨by decide, by decide, rfl, rfl, by decide, by decide⟩⟩

theorem getValue_foldl_addDependencyToGenerator_ne [JSFalsy a]
    (l : List SpringBootDependencyConfig) :
    ∀ (g : Generator a e) (p : String), p ≠ "springBootDependencies" →
      getValue (l.foldl addDependencyToGenerator g) p = getValue g p := by
  induction l with
  | nil => intro g p _; rfl
  | cons d rest ih =>
    intro g p hp
    show getValue (rest.foldl addDependencyToGenerator
      (addDependencyToGenerator g d)) p = _
    rw [ih _ p hp, getValue_addDependencyToGenerator_ne g d p hp]

/-- Claim C10 (amended): applyTo applies the property overrides in
    registration order, so provided no override's synthetic profile key
    (property ++ "@" ++ profile) equals the path p, and p is not the
    dependency-phase key "springBootDependencies" (or no dependency is
    registered), after a successful applyTo the property map holds, under
    p, the value of the last override registered with path p. -/
theorem claim10_amended_last_same_path_wins [JSFalsy a]
    (s : SpringBootModuleInjector a)
    (g : Generator a e) (p : String) (o : SpringBootPropertyOverride a)
    (hlast : lastMatching s.propertyOverrides p = some o)
    (hnocol : ∀ q ∈ s.propertyOverrides, ∀ pv ∈ q.profiles.getD [],
      q.property ++ "@" ++ pv.1 ≠ p)
    (hnodep : p ≠ "springBootDependencies" ∨ s.dependencies = [])
    (hsucc : (applyTo s g).snd = none) :
    getValue (applyTo s g).fst p = some (ConfigValue.val o.value) := by
  cases hsnd : (applyModules g (sortByPriority s.modules)).snd with
  | some err =>
    exfalso
    simp only [applyTo, hsnd] at hsucc
    exact Option.noConfusion hsucc
  | none =>
    have hfst : (applyTo s g).fst =
        s.dependencies.foldl addDependencyToGenerator
          (s.propertyOverrides.foldl applyPropertyOverride
            (applyModules g (sortByPriority s.modules)).fst) := by
      simp only [applyTo, hsnd]
    rw [hfst]
    have hdep : ∀ g2 : Generator a e,
        getValue (s.dependencies.foldl addDependencyToGenerator g2) p =
          getValue g2 p := by
      intro g2
      cases hnodep with
      | inl hp => exact getValue_foldl_addDependencyToGenerator_ne s.dependencies g2 p hp
      | inr hd => rw [hd]; rfl
    rw [hdep, foldl_applyPropertyOverride_eq, getValue_applyWrites,
      lastValue_writesOfList s.propertyOverrides p hnocol, hlast]
    rfl

/-! ## Concrete witnesses for the hypothesis-bearing claim theorems -/

theorem claim1_witness :
    (applyTo c1Injector (emptyGenerator Unit Unit)).snd = none ∧
    (applyTo c1Injector (emptyGenerator Unit Unit)).fst.composeCalls =
      [("B", none), ("C", none), ("A", none)] := by
  have h := claim1_applyTo_stable_priority_order c1Injector
    (emptyGenerator Unit Unit) (fun _ _ => rfl)
  exact ⟨h.1, h.2.2.2.2.2⟩

/-- A fresh builder in the store model: three one-cell stores, each builder
    reference pointing at its cell. -/
def hInit : HInjector Nat :=
  { mStore := { next := 1, mem := fun _ => [] }, mRef := 0,
    pStore := { next := 1, mem := fun _ => [] }, pRef := 0,
    dStore := { next := 1, mem := fun _ => [] }, dRef := 0 }

theorem claim3_witness :
    HInjector.WF hInit ∧
    (hInjectModule (hGetModules hInit).2 "jhipster:spring-boot:jwt"
        none).mStore.read (hGetModules hInit).1 =
      (hGetModules hInit).2.mStore.read (hGetModules hInit).1 ∧
    (∀ l : List (SpringBootModuleConfig Nat),
      ((hGetModules hInit).2.mStore.write (hGetModules hInit).1 l).read
        (hGetModules hInit).2.mRef = hInit.mStore.read hInit.mRef) := by
  have hwf : HInjector.WF hInit := ⟨Nat.zero_lt_one, Nat.zero_lt_one, Nat.zero_lt_one⟩
  have h := claim3_accessors_return_copies hInit hwf
  exact ⟨hwf, h.2.1 "jhipster:spring-boot:jwt" none, h.2.2.1⟩

/-- A generator whose composition call fails exactly on identifier "B". -/
def c4gen : Generator Unit String :=
  { composeWithJHipster := fun idf _ =>
      if idf = "B" then Except.error "boom" else Except.ok (),
    composeCalls := [], jhipsterConfig := [],
    configWrites := [], depWrites := [] }

/-- Modules A(2), B(1), C(1) plus one override and one dependency, to show
    the later phases are skipped after the failure on B. -/
def c4Injector : SpringBootModuleInjector Unit :=
  { modules := [mkModule "A" 2, mkModule "B" 1, mkModule "C" 1],
    propertyOverrides := [{ property := "p", value := (), type := none,
                            override := none, profiles := none }],
    dependencies := [depLib1] }

theorem claim4_witness :
    (applyTo c4Injector c4gen).snd = some "boom" ∧
    (applyTo c4Injector c4gen).fst.composeCalls =
      c4gen.composeCalls ++
        ([] : List (SpringBootModuleConfig Unit)).map composeCallOf ++
        [composeCallOf (mkModule "B" 1)] ∧
    (applyTo c4Injector c4gen).fst.jhipsterConfig = c4gen.jhipsterConfig ∧
    (applyTo c4Injector c4gen).fst.configWrites = c4gen.configWrites ∧
    (∀ k, getDep (applyTo c4Injector c4gen).fst k = getDep c4gen k) ∧
    (applyTo c4Injector c4gen).fst.depWrites = c4gen.depWrites :=
  claim4_compose_error_propagates c4Injector c4gen []
    (mkModule "B" 1) [mkModule "C" 1, mkModule "A" 2] "boom"
    (by decide) (by simp) (by simp [c4gen, mkModule])

/-- One override of logging.level.root with dev and prod profile values. -/
def c5Injector : SpringBootModuleInjector String :=
  { modules := [],
    propertyOverrides := [{ property := "logging.level.root",
                            value := "INFO", type := none, override := none,
                            profiles := some [("dev", "DEBUG"), ("prod", "WARN")] }],
    dependencies := [] }

theorem claim5_witness :
    (applyTo c5Injector (emptyGenerator String Unit)).fst.configWrites =
      [("logging.level.root", "INFO"), ("logging.level.root@dev", "DEBUG"),
       ("logging.level.root@prod", "WARN")] := by
  have h := (claim5_property_override_writes c5Injector
    (emptyGenerator String Unit) (fun _ _ => rfl)).1
  rw [h]
  rfl

/-- A disabled module request. -/
def c7m : SpringBootModuleConfig Unit :=
  { module := "B", enabled := false, config := none, priority := none }

theorem claim7_witness :
    applyTo { modules := [mkModule "A" 1] ++ c7m :: [],
              propertyOverrides := [], dependencies := [] }
        (emptyGenerator Unit Unit) =
      applyTo { modules := [mkModule "A" 1] ++ [],
                propertyOverrides := [], dependencies := [] }
        (emptyGenerator Unit Unit) ∧
    c7m ∈ getModules { modules := [mkModule "A" 1] ++ c7m :: [],
                       propertyOverrides := [], dependencies := [] } :=
  claim7_disabled_module_skipped [mkModule "A" 1] [] [] [] c7m
    (emptyGenerator Unit Unit) rfl

/-- Two builders equal except for an override's type and override flag and
    a dependency's scope, optional and exclusions. -/
def c9s1 : SpringBootModuleInjector Nat :=
  { modules := [],
    propertyOverrides := [{ property := "x", value := 1,
                            type := some PropType.string,
                            override := some true, profiles := none }],
    dependencies := [{ groupId := "com.example", artifactId := "lib",
                       version := some "1.0.0",
                       scope := some DepScope.compile,
                       optional := some true,
                       exclusions := some [("a", "b")] }] }

def c9s2 : SpringBootModuleInjector Nat :=
  { modules := [],
    propertyOverrides := [{ property := "x", value := 1, type := none,
                            override := none, profiles := none }],
    dependencies := [{ groupId := "com.example", artifactId := "lib",
                       version := some "1.0.0", scope := none,
                       optional := none, exclusions := none }] }

theorem claim9_witness :
    applyTo c9s1 (emptyGenerator Nat Unit) =
      applyTo c9s2 (emptyGenerator Nat Unit) :=
  claim9_unused_fields_no_influence (emptyGenerator Nat Unit) c9s1 c9s2
    rfl (by decide) (by decide)

/-- Overrides x:=1, x:=2, then y:=5 with a non-colliding profile d:=6. -/
def c10w : SpringBootModuleInjector Nat :=
  { modules := [],
    propertyOverrides :=
      [{ property := "x", value := 1, type := none, override := none,
         profiles := none },
       { property := "x", value := 2, type := none, override := none,
         profiles := none },
       { property := "y", value := 5, type := none, override := none,
         profiles := some [("d", 6)] }],
    dependencies := [] }

theorem claim10_witness :
    getValue (applyTo c10w (emptyGenerator Nat Unit)).fst "x" =
      some (ConfigValue.val 2) :=
  claim10_amended_last_same_path_wins c10w (emptyGenerator Nat Unit) "x"
    { property := "x", value := 2, type := none, override := none,
      profiles := none }
    (by decide) (by decide) (Or.inl (by decide)) rfl

end TypedApi
